import Mathlib

/-!
Shallow embedding of the churn-analysis core of `src/api.js`:
the unified-diff patch parser (`parsePatch` and its helpers) and the
line-classification engine (`classifyLine`, `extractCommitInfo`,
`calculateDeltaDays`).  JavaScript runtime values are modelled explicitly:
a JS `Date` is `Option Int` (`none` = Invalid Date, i.e. a NaN time value),
a JS number that may be NaN is `Option Rat` (`none` = NaN, so every ordered
comparison with it is false), and nullable fields are `Option`s.  A date
string is represented by its parse outcome (`DateStr`): the empty string,
a non-empty unparseable string, or a non-empty string that parses to an
epoch-millisecond value.  All functions are total, mirroring the source,
which raises no exceptions in this core.
-/

namespace CATEGORIES

def CHURN : String := "Churn"

def REWORK : String := "Rework"

def NEW_WORK : String := "New Work"

def HELP_OTHERS : String := "Help Others"

end CATEGORIES

namespace HUNK_TYPES

def ADD_ONLY : String := "add-only"

def DELETE_ONLY : String := "delete-only"

def REPLACE : String := "replace"

end HUNK_TYPES

/-- `MILLISECONDS_PER_DAY = 1000 * 60 * 60 * 24` from the source. -/
def MILLISECONDS_PER_DAY : ℚ := 1000 * 60 * 60 * 24

/-- A JavaScript `Date` value: `none` is an Invalid Date (NaN time value),
`some ms` a valid date whose time value is `ms` epoch milliseconds. -/
abbrev JSDate := Option ℤ

/-- A JavaScript number that may be NaN: `none` is NaN. -/
abbrev JSNum := Option ℚ

/-- A JavaScript string fed to `new Date(...)`, represented by its parse
outcome: empty, non-empty but unparseable, or parsing to epoch ms. -/
inductive DateStr where
  | empty : DateStr
  | invalid : String → DateStr
  | valid : ℤ → DateStr
deriving DecidableEq

/-- `new Date(s)` on a string `s` (the source only calls it on non-empty
strings, but the model is total): unparseable input gives Invalid Date. -/
def parseJSDate : DateStr → JSDate
  | DateStr.empty => none
  | DateStr.invalid _ => none
  | DateStr.valid ms => some ms

/-- The `author` object of a blame range's commit (GraphQL `author { name }`). -/
structure Author where
  name : Option String
deriving DecidableEq

/-- The `commit` object of a blame range (GraphQL `{ oid committedDate author }`);
every field may be null/absent. -/
structure Commit where
  oid : Option String
  committedDate : Option DateStr
  author : Option Author
deriving DecidableEq

/-- A blame range as consumed by `classifyLine` (GraphQL
`{ startingLine endingLine commit }`). -/
structure BlameRange where
  startingLine : ℤ
  endingLine : ℤ
  commit : Option Commit
deriving DecidableEq

/-- The JS idiom `x || null` on a string-or-null value: a falsy value
(null/undefined or the empty string) becomes null. -/
def orNullStr (s : Option String) : Option String :=
  match s with
  | some v => if v = "" then none else some v
  | none => none

/-- The JS idiom `x || null` on a date-string-or-null value. -/
def orNullDateStr (d : Option DateStr) : Option DateStr :=
  match d with
  | some v => if v = DateStr.empty then none else some v
  | none => none

/-- Result of `extractCommitInfo`: `{ author, commitOid, date }` where
`date` is null (`none`) or a Date object (`some d`, `d` possibly Invalid). -/
structure CommitInfo where
  author : Option String
  commitOid : Option String
  date : Option JSDate
deriving DecidableEq

/-- `extractCommitInfo(range)` from the source:
`commit = range.commit || {}`, `author = commit.author?.name || null`,
`commitOid = commit.oid || null`, `dateStr = commit.committedDate || null`,
`date = dateStr ? new Date(dateStr) : null`. -/
def extractCommitInfo (range : BlameRange) : CommitInfo :=
  let commit := range.commit.getD ⟨none, none, none⟩
  let author := orNullStr (commit.author.bind Author.name)
  let commitOid := orNullStr commit.oid
  let dateStr := orNullDateStr commit.committedDate
  let date := dateStr.map parseJSDate
  ⟨author, commitOid, date⟩

/-- `calculateDeltaDays(currentDate, previousDate)` from the source:
`(currentDate - previousDate) / MILLISECONDS_PER_DAY`; subtraction
involving an Invalid Date yields NaN. -/
def calculateDeltaDays (currentDate previousDate : JSDate) : JSNum :=
  match currentDate, previousDate with
  | some c, some p => some (((c - p : ℤ) : ℚ) / MILLISECONDS_PER_DAY)
  | _, _ => none

/-- JS `x <= y` for a possibly-NaN left operand: NaN compares false. -/
def jsLe (x : JSNum) (y : ℚ) : Bool :=
  match x with
  | some q => decide (q ≤ y)
  | none => false

/-- Output of `classifyLine`: `{ category, prevAuthor, prevCommit, deltaDays }`;
`deltaDays` is null (`none`) or a number (`some v`, `v` possibly NaN). -/
structure ClassificationResult where
  category : String
  prevAuthor : Option String
  prevCommit : Option String
  deltaDays : Option JSNum
deriving DecidableEq

/-- `classifyLine(lineNum, hunkType, blameRanges, currentAuthor, currentDate,
maxDeltaDays)` from the source.  A non-array `blameRanges` argument (modelled
as `none`) is replaced by the empty array.  `add-only` hunks are New Work;
`replace` hunks scan the ranges with `Array.prototype.find` for the first
range with `lineNum >= startingLine && lineNum <= endingLine`; anything else
(including `delete-only`) falls through to New Work. -/
def classifyLine (lineNum : ℤ) (hunkType : String)
    (blameRanges : Option (List BlameRange)) (currentAuthor : String)
    (currentDate : JSDate) (maxDeltaDays : ℚ) : ClassificationResult :=
  let ranges := blameRanges.getD []
  if hunkType = HUNK_TYPES.ADD_ONLY then
    ⟨CATEGORIES.NEW_WORK, none, none, none⟩
  else if hunkType = HUNK_TYPES.REPLACE then
    match ranges.find? (fun r =>
        decide (lineNum ≥ r.startingLine) && decide (lineNum ≤ r.endingLine)) with
    | none => ⟨CATEGORIES.NEW_WORK, none, none, none⟩
    | some range =>
      let info := extractCommitInfo range
      match info.date with
      | none => ⟨CATEGORIES.NEW_WORK, info.author, info.commitOid, none⟩
      | some prevDate =>
        let deltaDays := calculateDeltaDays currentDate prevDate
        let category :=
          if info.author = some currentAuthor then
            if jsLe deltaDays maxDeltaDays then CATEGORIES.CHURN
            else CATEGORIES.REWORK
          else CATEGORIES.HELP_OTHERS
        ⟨category, info.author, info.commitOid, some deltaDays⟩
  else
    ⟨CATEGORIES.NEW_WORK, none, none, none⟩

/-! ### Patch parsing -/

/-- The character class of the JS regex `\s` (as used by `/^\s*$/`). -/
def isJSWhitespace (c : Char) : Bool :=
  c = ' ' || c = '\t' || c = '\n' || c = '\r' || c.val = 0x0B || c.val = 0x0C ||
  c.val = 0xA0 || c.val = 0x1680 || (0x2000 ≤ c.val && c.val ≤ 0x200A) ||
  c.val = 0x2028 || c.val = 0x2029 || c.val = 0x202F || c.val = 0x205F ||
  c.val = 0x3000 || c.val = 0xFEFF

/-- `isBlankLine(lineContent)` from the source: `/^\s*$/.test(lineContent)`. -/
def isBlankLine (s : String) : Bool :=
  s.data.all isJSWhitespace

/-- A parser line entry `{ content, lineNum }`. -/
structure LineEntry where
  content : String
  lineNum : ℕ
deriving DecidableEq

/-- The parser's transient hunk buffer. -/
structure Hunk where
  removedLines : List LineEntry
  addedLines : List LineEntry
  startNewLine : ℕ
  startOldLine : ℕ
deriving DecidableEq

/-- `createEmptyHunk()` from the source. -/
def createEmptyHunk : Hunk := ⟨[], [], 0, 0⟩

/-- `determineHunkType(removedLines, addedLines, allAddedLines)` from the
source; the first two arguments are the non-blank subsets. -/
def determineHunkType (removedLines addedLines allAddedLines : List LineEntry) :
    String :=
  if removedLines.length = 0 ∧ addedLines.length > 0 then HUNK_TYPES.ADD_ONLY
  else if removedLines.length > 0 ∧ addedLines.length = 0 then
    HUNK_TYPES.DELETE_ONLY
  else if removedLines.length > 0 ∧ addedLines.length > 0 then
    HUNK_TYPES.REPLACE
  else if allAddedLines.length > 0 then HUNK_TYPES.ADD_ONLY
  else HUNK_TYPES.DELETE_ONLY

/-- An emitted record `{ line, number, hunkType, removedLines }`. -/
structure AddedLine where
  line : String
  number : ℕ
  hunkType : String
  removedLines : List LineEntry
deriving DecidableEq

/-- `finalizeHunk(currentHunk, addedLines)` from the source.  The JS
function mutates the accumulator array and returns a fresh empty hunk; the
embedding returns the pair (new accumulator, fresh hunk). -/
def finalizeHunk (currentHunk : Hunk) (addedLines : List AddedLine) :
    List AddedLine × Hunk :=
  if currentHunk.addedLines.length = 0 ∧ currentHunk.removedLines.length = 0 then
    (addedLines, createEmptyHunk)
  else
    let nonBlankRemoved :=
      currentHunk.removedLines.filter (fun l => !isBlankLine l.content)
    let nonBlankAdded :=
      currentHunk.addedLines.filter (fun l => !isBlankLine l.content)
    let hunkType := determineHunkType nonBlankRemoved nonBlankAdded
      currentHunk.addedLines
    let newRecs := currentHunk.addedLines.map (fun added =>
      AddedLine.mk added.content added.lineNum hunkType
        (if hunkType = HUNK_TYPES.REPLACE then currentHunk.removedLines else []))
    (addedLines ++ newRecs, createEmptyHunk)

/-- Does the character list start with the given pattern list? -/
def leadsWith : List Char → List Char → Bool
  | [], _ => true
  | _ :: _, [] => false
  | p :: ps, c :: cs => (p == c) && leadsWith ps cs

/-- `s.startsWith(p)` of JavaScript (both arguments here are ASCII, so
UTF-16 units and code points coincide). -/
def jsStartsWith (s p : String) : Bool :=
  leadsWith p.data s.data

/-- Longest leading run of decimal digits, with the rest of the input. -/
def takeDigits : List Char → List Char × List Char
  | [] => ([], [])
  | c :: rest =>
    if c.isDigit then
      let p := takeDigits rest
      (c :: p.1, p.2)
    else ([], c :: rest)

/-- `parseInt(digits, 10)` for a non-empty decimal digit string. -/
def digitsToNat (ds : List Char) : ℕ :=
  ds.foldl (fun n c => 10 * n + (c.toNat - '0'.toNat)) 0

/-- The optional regex group `(?:,\d+)?`: consume `,` followed by a digit
run when possible, otherwise consume nothing.  (For the header pattern this
greedy choice agrees with backtracking: the continuations expect a space,
which can match neither a comma nor a digit.) -/
def matchOptCommaDigits (s : List Char) : List Char :=
  match s with
  | ',' :: rest =>
    let p := takeDigits rest
    if p.1.isEmpty then s else p.2
  | _ => s

/-- Match the regex `@@ -(\d+)(?:,\d+)? \+(\d+)(?:,(\d+))? @@` at the head
of the character list, returning the first two captured groups as numbers
(the third capture is unused by the source). -/
def matchHeaderAt (s : List Char) : Option (ℕ × ℕ) :=
  match s with
  | '@' :: '@' :: ' ' :: '-' :: rest =>
    let p1 := takeDigits rest
    if p1.1.isEmpty then none
    else
      match matchOptCommaDigits p1.2 with
      | ' ' :: '+' :: r3 =>
        let p2 := takeDigits r3
        if p2.1.isEmpty then none
        else
          match matchOptCommaDigits p2.2 with
          | ' ' :: '@' :: '@' :: _ => some (digitsToNat p1.1, digitsToNat p2.1)
          | _ => none
      | _ => none
  | _ => none

/-- Unanchored regex search (`RegExp.prototype.exec`): try each start
position from the left. -/
def searchHeader : List Char → Option (ℕ × ℕ)
  | [] => none
  | c :: rest =>
    match matchHeaderAt (c :: rest) with
    | some v => some v
    | none => searchHeader rest

/-- `/@@ -(\d+)(?:,\d+)? \+(\d+)(?:,(\d+))? @@/.exec(line)` from the source,
reduced to the `(oldStart, newStart)` pair the source reads out of it. -/
def execHunkHeader (line : String) : Option (ℕ × ℕ) :=
  searchHeader line.data

/-- The parser's loop state: accumulated output, the two running
line-number counters, and the in-progress hunk buffer. -/
structure ParseState where
  addedLines : List AddedLine
  newLineNum : ℕ
  oldLineNum : ℕ
  currentHunk : Hunk
deriving DecidableEq

/-- One iteration of the `for (const line of lines)` loop of `parsePatch`. -/
def processLine (st : ParseState) (line : String) : ParseState :=
  if jsStartsWith line "@@" then
    let fin := finalizeHunk st.currentHunk st.addedLines
    match execHunkHeader line with
    | some v =>
      ⟨fin.1, v.2, v.1,
        { fin.2 with startOldLine := v.1, startNewLine := v.2 }⟩
    | none => ⟨fin.1, 0, 0, fin.2⟩
  else if jsStartsWith line "+" && !jsStartsWith line "+++" then
    { st with
      currentHunk := { st.currentHunk with
        addedLines := st.currentHunk.addedLines ++ [⟨line.drop 1, st.newLineNum⟩] }
      newLineNum := st.newLineNum + 1 }
  else if jsStartsWith line "-" && !jsStartsWith line "---" then
    { st with
      currentHunk := { st.currentHunk with
        removedLines := st.currentHunk.removedLines ++ [⟨line.drop 1, st.oldLineNum⟩] }
      oldLineNum := st.oldLineNum + 1 }
  else if !jsStartsWith line "\\" then
    let st1 :=
      if st.currentHunk.addedLines.length > 0 ∨
          st.currentHunk.removedLines.length > 0 then
        let fin := finalizeHunk st.currentHunk st.addedLines
        { st with addedLines := fin.1, currentHunk := fin.2 }
      else st
    { st1 with newLineNum := st1.newLineNum + 1, oldLineNum := st1.oldLineNum + 1 }
  else st

/-- The parser's initial state. -/
def initialParseState : ParseState := ⟨[], 0, 0, createEmptyHunk⟩

/-- Helper for `jsSplitNewline`: split a character list on newline
characters, accumulating the current piece in reverse. -/
def splitLinesAux : List Char → List Char → List String
  | [], acc => [String.mk acc.reverse]
  | c :: cs, acc =>
    if c = '\n' then String.mk acc.reverse :: splitLinesAux cs []
    else splitLinesAux cs (c :: acc)

/-- `patch.split("\n")` of JavaScript: every newline is a separator, the
empty string yields a single empty piece. -/
def jsSplitNewline (s : String) : List String :=
  splitLinesAux s.data []

/-- `parsePatch(patch)` from the source: split on newlines, run the loop,
finalize the last hunk, return the accumulated added-line records. -/
def parsePatch (patch : String) : List AddedLine :=
  let lines := jsSplitNewline patch
  let st := lines.foldl processLine initialParseState
  (finalizeHunk st.currentHunk st.addedLines).1

/-- Unfolding lemma for the `replace` branch of `classifyLine`. -/
theorem classifyLine_replace_eq (n : ℤ) (br : Option (List BlameRange))
    (a : String) (d : JSDate) (t : ℚ) :
    classifyLine n HUNK_TYPES.REPLACE br a d t =
      (match (br.getD []).find? (fun r =>
          decide (n ≥ r.startingLine) && decide (n ≤ r.endingLine)) with
      | none => ⟨CATEGORIES.NEW_WORK, none, none, none⟩
      | some range =>
        match (extractCommitInfo range).date with
        | none => ⟨CATEGORIES.NEW_WORK, (extractCommitInfo range).author,
            (extractCommitInfo range).commitOid, none⟩
        | some prevDate =>
          ⟨if (extractCommitInfo range).author = some a then
              if jsLe (calculateDeltaDays d prevDate) t then CATEGORIES.CHURN
              else CATEGORIES.REWORK
            else CATEGORIES.HELP_OTHERS,
            (extractCommitInfo range).author, (extractCommitInfo range).commitOid,
            some (calculateDeltaDays d prevDate)⟩ : ClassificationResult) := rfl

/-- C1: for a replace-hunk line whose matched blame range yields a present previousAuthor and present previousDate, same author (exact string equality) gives Churn when deltaDays is a number with deltaDays at most the threshold and Rework when it exceeds the threshold (inclusive upper bound for Churn); a differing or absent previous author gives Help Others regardless of deltaDays. -/
theorem c1_replace_same_author_threshold (lineNum : ℤ) (blameRanges : Option (List BlameRange))
    (currentAuthor : String) (currentDate : JSDate) (maxDeltaDays : ℚ)
    (r : BlameRange) (pd : JSDate)
    (hfind : (blameRanges.getD []).find? (fun r =>
        decide (lineNum ≥ r.startingLine) && decide (lineNum ≤ r.endingLine)) = some r)
    (hdate : (extractCommitInfo r).date = some pd) :
    (∀ pa : String, (extractCommitInfo r).author = some pa → pa = currentAuthor →
       (∀ q : ℚ, calculateDeltaDays currentDate pd = some q → q ≤ maxDeltaDays →
          (classifyLine lineNum HUNK_TYPES.REPLACE blameRanges currentAuthor
            currentDate maxDeltaDays).category = CATEGORIES.CHURN) ∧
       (∀ q : ℚ, calculateDeltaDays currentDate pd = some q → maxDeltaDays < q →
          (classifyLine lineNum HUNK_TYPES.REPLACE blameRanges currentAuthor
            currentDate maxDeltaDays).category = CATEGORIES.REWORK)) ∧
    (∀ pa : String, (extractCommitInfo r).author = some pa → pa ≠ currentAuthor →
       (classifyLine lineNum HUNK_TYPES.REPLACE blameRanges currentAuthor
         currentDate maxDeltaDays).category = CATEGORIES.HELP_OTHERS) ∧
    ((extractCommitInfo r).author = none →
       (classifyLine lineNum HUNK_TYPES.REPLACE blameRanges currentAuthor
         currentDate maxDeltaDays).category = CATEGORIES.HELP_OTHERS) := by
  have key := classifyLine_replace_eq lineNum blameRanges currentAuthor currentDate maxDeltaDays
  rw [hfind] at key
  simp only [hdate] at key
  refine ⟨?_, ?_, ?_⟩
  · intro pa hpa hsame
    subst hsame
    constructor
    · intro q hq hle
      rw [key, hq]
      simp [hpa, jsLe, hle]
    · intro q hq hgt
      rw [key, hq]
      simp [hpa, jsLe, not_le.mpr hgt]
  · intro pa hpa hdiff
    rw [key]
    simp [hpa, hdiff]
  · intro hnone
    rw [key]
    simp [hnone]

/-- C2: for a replace-hunk line, `classifyLine` scans the supplied blame ranges in order and selects the first range with startingLine ≤ number ≤ endingLine (both bounds inclusive); when no range matches — with an absent or non-array input behaving exactly like the empty list — the result is New Work with previousAuthor, previousCommit and deltaDays all absent. -/
theorem c2_replace_first_matching_range (lineNum : ℤ) (currentAuthor : String) (currentDate : JSDate)
    (maxDeltaDays : ℚ) :
    (∀ blameRanges : Option (List BlameRange),
      (∀ r ∈ blameRanges.getD [], ¬(r.startingLine ≤ lineNum ∧ lineNum ≤ r.endingLine)) →
      classifyLine lineNum HUNK_TYPES.REPLACE blameRanges currentAuthor
        currentDate maxDeltaDays = ⟨CATEGORIES.NEW_WORK, none, none, none⟩) ∧
    (classifyLine lineNum HUNK_TYPES.REPLACE none currentAuthor currentDate
        maxDeltaDays =
      classifyLine lineNum HUNK_TYPES.REPLACE (some []) currentAuthor currentDate
        maxDeltaDays) ∧
    (∀ (pre post : List BlameRange) (r : BlameRange),
      (∀ r' ∈ pre, ¬(r'.startingLine ≤ lineNum ∧ lineNum ≤ r'.endingLine)) →
      r.startingLine ≤ lineNum → lineNum ≤ r.endingLine →
      classifyLine lineNum HUNK_TYPES.REPLACE (some (pre ++ r :: post))
        currentAuthor currentDate maxDeltaDays =
      classifyLine lineNum HUNK_TYPES.REPLACE (some [r]) currentAuthor
        currentDate maxDeltaDays) := by
  refine ⟨?_, rfl, ?_⟩
  · intro br h
    have hnone : (br.getD []).find? (fun r =>
        decide (lineNum ≥ r.startingLine) && decide (lineNum ≤ r.endingLine)) = none := by
      rw [List.find?_eq_none]
      intro x hx
      simp only [Bool.and_eq_true, decide_eq_true_eq, ge_iff_le, not_and]
      intro h1 h2
      exact h x hx ⟨h1, h2⟩
    rw [classifyLine_replace_eq, hnone]
  · intro pre post r hpre h1 h2
    have hprenone : pre.find? (fun r =>
        decide (lineNum ≥ r.startingLine) && decide (lineNum ≤ r.endingLine)) = none := by
      rw [List.find?_eq_none]
      intro x hx
      simp only [Bool.and_eq_true, decide_eq_true_eq, ge_iff_le, not_and]
      intro ha hb
      exact hpre x hx ⟨ha, hb⟩
    have hr : (fun r : BlameRange =>
        decide (lineNum ≥ r.startingLine) && decide (lineNum ≤ r.endingLine)) r = true := by
      simp only [Bool.and_eq_true, decide_eq_true_eq, ge_iff_le]
      exact ⟨h1, h2⟩
    rw [classifyLine_replace_eq, classifyLine_replace_eq]
    simp only [Option.getD_some, List.find?_append, hprenone, Option.none_or]
    have e1 : List.find? (fun r : BlameRange =>
        decide (lineNum ≥ r.startingLine) && decide (lineNum ≤ r.endingLine))
        (r :: post) = some r := List.find?_cons_of_pos _ hr
    have e2 : List.find? (fun r : BlameRange =>
        decide (lineNum ≥ r.startingLine) && decide (lineNum ≤ r.endingLine))
        [r] = some r := List.find?_cons_of_pos _ hr
    rw [e1, e2]

/-- C7: for an added line whose hunkType is add-only or delete-only, `classifyLine` returns category New Work with previousAuthor, previousCommit and deltaDays all absent, for every supplied blame-range input (the ranges are ignored even when one covers the line's number). -/
theorem c7_add_delete_only_new_work (lineNum : ℤ)
    (blameRanges : Option (List BlameRange)) (currentAuthor : String)
    (currentDate : JSDate) (maxDeltaDays : ℚ) :
    classifyLine lineNum HUNK_TYPES.ADD_ONLY blameRanges currentAuthor
        currentDate maxDeltaDays =
      ⟨CATEGORIES.NEW_WORK, none, none, none⟩ ∧
    classifyLine lineNum HUNK_TYPES.DELETE_ONLY blameRanges currentAuthor
        currentDate maxDeltaDays =
      ⟨CATEGORIES.NEW_WORK, none, none, none⟩ :=
  ⟨rfl, rfl⟩

/-- C8 (amended): for a replace-hunk line whose matched blame range has an absent or empty committedDate, the result is New Work with deltaDays absent, while previousAuthor is the range's author name if present and non-empty (else absent) and previousCommit is the range's commit identifier if present and non-empty (else absent). -/
theorem c8_missing_date_new_work_keeps_evidence (lineNum : ℤ) (blameRanges : Option (List BlameRange))
    (currentAuthor : String) (currentDate : JSDate) (maxDeltaDays : ℚ)
    (r : BlameRange)
    (hfind : (blameRanges.getD []).find? (fun r =>
        decide (lineNum ≥ r.startingLine) && decide (lineNum ≤ r.endingLine)) = some r)
    (hdate : (r.commit.getD ⟨none, none, none⟩).committedDate = none ∨
      (r.commit.getD ⟨none, none, none⟩).committedDate = some DateStr.empty) :
    (classifyLine lineNum HUNK_TYPES.REPLACE blameRanges currentAuthor
        currentDate maxDeltaDays).category = CATEGORIES.NEW_WORK ∧
    (classifyLine lineNum HUNK_TYPES.REPLACE blameRanges currentAuthor
        currentDate maxDeltaDays).deltaDays = none ∧
    (∀ nm : String, ((r.commit.getD ⟨none, none, none⟩).author.bind Author.name)
        = some nm → nm ≠ "" →
      (classifyLine lineNum HUNK_TYPES.REPLACE blameRanges currentAuthor
        currentDate maxDeltaDays).prevAuthor = some nm) ∧
    (((r.commit.getD ⟨none, none, none⟩).author.bind Author.name) = none ∨
      ((r.commit.getD ⟨none, none, none⟩).author.bind Author.name) = some "" →
      (classifyLine lineNum HUNK_TYPES.REPLACE blameRanges currentAuthor
        currentDate maxDeltaDays).prevAuthor = none) ∧
    (∀ oidv : String, (r.commit.getD ⟨none, none, none⟩).oid = some oidv →
      oidv ≠ "" →
      (classifyLine lineNum HUNK_TYPES.REPLACE blameRanges currentAuthor
        currentDate maxDeltaDays).prevCommit = some oidv) ∧
    ((r.commit.getD ⟨none, none, none⟩).oid = none ∨
      (r.commit.getD ⟨none, none, none⟩).oid = some "" →
      (classifyLine lineNum HUNK_TYPES.REPLACE blameRanges currentAuthor
        currentDate maxDeltaDays).prevCommit = none) := by
  have hdnone : (extractCommitInfo r).date = none := by
    unfold extractCommitInfo
    rcases hdate with h | h <;> simp [orNullDateStr, h]
  have key := classifyLine_replace_eq lineNum blameRanges currentAuthor
    currentDate maxDeltaDays
  rw [hfind] at key
  simp only [hdnone] at key
  rw [key]
  refine ⟨rfl, rfl, ?_, ?_, ?_, ?_⟩
  · intro nm hnm hne
    show (extractCommitInfo r).author = some nm
    unfold extractCommitInfo
    simp [orNullStr, hnm, hne]
  · intro hcase
    show (extractCommitInfo r).author = none
    unfold extractCommitInfo
    rcases hcase with h | h <;> simp [orNullStr, h]
  · intro oidv hoid hne
    show (extractCommitInfo r).commitOid = some oidv
    unfold extractCommitInfo
    simp [orNullStr, hoid, hne]
  · intro hcase
    show (extractCommitInfo r).commitOid = none
    unfold extractCommitInfo
    rcases hcase with h | h <;> simp [orNullStr, h]

/-- C8 counterexample: a matched range whose commit identifier is present but the empty string is reported with previousCommit absent rather than the empty identifier, so the unamended claim (previousCommit is the range's identifier whenever present) fails on this input. -/
theorem c8_counterexample_empty_oid :
    classifyLine 1 HUNK_TYPES.REPLACE
        (some [⟨1, 1, some ⟨some "", none, some ⟨some "alice"⟩⟩⟩]) "bob"
        (some 0) 21 =
      ⟨CATEGORIES.NEW_WORK, some "alice", none, none⟩ ∧
    ¬ (classifyLine 1 HUNK_TYPES.REPLACE
        (some [⟨1, 1, some ⟨some "", none, some ⟨some "alice"⟩⟩⟩]) "bob"
        (some 0) 21).prevCommit = some "" := by
  constructor
  · decide
  · decide

/-- C4: code behavior at the failing input — a present-but-unparseable committedDate is treated as present (an Invalid Date object is truthy), the computed delta is NaN, every numeric comparison with NaN is false, and the line is classified Rework for a same author and Help Others for a different author, not the safe default New Work that the claim requires. -/
theorem c4_invalid_date_code_behavior :
    classifyLine 1 HUNK_TYPES.REPLACE
        (some [⟨1, 1, some ⟨some "abc123", some (DateStr.invalid "not-a-date"),
          some ⟨some "alice"⟩⟩⟩]) "alice" (some 0) 21 =
      ⟨CATEGORIES.REWORK, some "alice", some "abc123", some none⟩ ∧
    classifyLine 1 HUNK_TYPES.REPLACE
        (some [⟨1, 1, some ⟨some "abc123", some (DateStr.invalid "not-a-date"),
          some ⟨some "alice"⟩⟩⟩]) "bob" (some 0) 21 =
      ⟨CATEGORIES.HELP_OTHERS, some "alice", some "abc123", some none⟩ := by
  constructor
  · decide
  · decide

/-- C3: for a non-empty hunk buffer, the type carried by every emitted record is determined from the non-blank subsets of its removed and added lines: none removed and some added gives add-only, some removed and none added gives delete-only, both gives replace, and when both non-blank subsets are empty the type is add-only exactly when the raw added-line buffer is non-empty. -/
theorem c3_hunk_type_from_nonblank_subsets (h : Hunk) (acc : List AddedLine)
    (hne : h.addedLines ≠ [] ∨ h.removedLines ≠ []) :
    ((h.removedLines.filter (fun l => !isBlankLine l.content)) = [] →
      (h.addedLines.filter (fun l => !isBlankLine l.content)) ≠ [] →
      determineHunkType
        (h.removedLines.filter (fun l => !isBlankLine l.content))
        (h.addedLines.filter (fun l => !isBlankLine l.content))
        h.addedLines = HUNK_TYPES.ADD_ONLY) ∧
    ((h.removedLines.filter (fun l => !isBlankLine l.content)) ≠ [] →
      (h.addedLines.filter (fun l => !isBlankLine l.content)) = [] →
      determineHunkType
        (h.removedLines.filter (fun l => !isBlankLine l.content))
        (h.addedLines.filter (fun l => !isBlankLine l.content))
        h.addedLines = HUNK_TYPES.DELETE_ONLY) ∧
    ((h.removedLines.filter (fun l => !isBlankLine l.content)) ≠ [] →
      (h.addedLines.filter (fun l => !isBlankLine l.content)) ≠ [] →
      determineHunkType
        (h.removedLines.filter (fun l => !isBlankLine l.content))
        (h.addedLines.filter (fun l => !isBlankLine l.content))
        h.addedLines = HUNK_TYPES.REPLACE) ∧
    ((h.removedLines.filter (fun l => !isBlankLine l.content)) = [] →
      (h.addedLines.filter (fun l => !isBlankLine l.content)) = [] →
      determineHunkType
        (h.removedLines.filter (fun l => !isBlankLine l.content))
        (h.addedLines.filter (fun l => !isBlankLine l.content))
        h.addedLines =
        (if h.addedLines ≠ [] then HUNK_TYPES.ADD_ONLY else HUNK_TYPES.DELETE_ONLY)) ∧
    (∀ rec ∈ (finalizeHunk h acc).1, rec ∈ acc ∨
      rec.hunkType = determineHunkType
        (h.removedLines.filter (fun l => !isBlankLine l.content))
        (h.addedLines.filter (fun l => !isBlankLine l.content))
        h.addedLines) := by
  refine ⟨?_, ?_, ?_, ?_, ?_⟩
  · intro h1 h2
    unfold determineHunkType
    rw [if_pos ⟨by simp [h1], by simp [List.length_pos, h2]⟩]
  · intro h1 h2
    unfold determineHunkType
    rw [if_neg (by simp [List.length_eq_zero, h1]), if_pos ⟨by simp [List.length_pos, h1], by simp [h2]⟩]
  · intro h1 h2
    unfold determineHunkType
    rw [if_neg (by simp [List.length_eq_zero, h1]),
      if_neg (by simp [List.length_eq_zero, List.length_pos, h1, h2]),
      if_pos ⟨by simp [List.length_pos, h1], by simp [List.length_pos, h2]⟩]
  · intro h1 h2
    unfold determineHunkType
    rw [if_neg (by simp [List.length_eq_zero, h2]),
      if_neg (by simp [List.length_eq_zero, h1]),
      if_neg (by simp [List.length_eq_zero, h1, h2])]
    by_cases ha : h.addedLines = []
    · rw [if_neg (by simp [List.length_pos, ha]), if_neg (by simp [ha])]
    · rw [if_pos (by simp [List.length_pos, ha]), if_pos (by simp [ha])]
  · intro rec hrec
    unfold finalizeHunk at hrec
    split at hrec
    · exact Or.inl hrec
    · simp only [List.mem_append] at hrec
      rcases hrec with hmem | hmem
      · exact Or.inl hmem
      · right
        obtain ⟨a, _, rfl⟩ := List.mem_map.mp hmem
        rfl

/-- C5: finalizing an empty hunk buffer emits nothing; otherwise exactly one record is emitted per raw added line (blank lines included), every record carries the same determined hunk type, and each record's removedLines field is the full raw removed-line list exactly when that type is replace and the empty list otherwise. -/
theorem c5_finalize_emission (h : Hunk) (acc : List AddedLine) :
    (h.addedLines = [] ∧ h.removedLines = [] → (finalizeHunk h acc).1 = acc) ∧
    (h.addedLines ≠ [] ∨ h.removedLines ≠ [] →
      ∃ (t : String) (rest : List AddedLine),
        (finalizeHunk h acc).1 = acc ++ rest ∧
        rest.length = h.addedLines.length ∧
        ∀ rec ∈ rest, rec.hunkType = t ∧
          rec.removedLines =
            (if t = HUNK_TYPES.REPLACE then h.removedLines else [])) := by
  constructor
  · rintro ⟨ha, hr⟩
    unfold finalizeHunk
    rw [if_pos ⟨by simp [ha], by simp [hr]⟩]
  · intro hne
    unfold finalizeHunk
    rw [if_neg (by
      rintro ⟨h1, h2⟩
      rcases hne with hx | hx
      · exact hx (List.length_eq_zero.mp h1)
      · exact hx (List.length_eq_zero.mp h2))]
    refine ⟨determineHunkType
        (h.removedLines.filter (fun l => !isBlankLine l.content))
        (h.addedLines.filter (fun l => !isBlankLine l.content)) h.addedLines,
      _, rfl, by simp, ?_⟩
    intro rec hrec
    obtain ⟨a, _, rfl⟩ := List.mem_map.mp hrec
    exact ⟨rfl, rfl⟩

theorem finalizeHunk_snd (h : Hunk) (acc : List AddedLine) :
    (finalizeHunk h acc).2 = createEmptyHunk := by
  unfold finalizeHunk
  split <;> rfl

theorem finalizeHunk_map_number (h : Hunk) (acc : List AddedLine) :
    ((finalizeHunk h acc).1).map AddedLine.number =
      acc.map AddedLine.number ++ h.addedLines.map LineEntry.lineNum := by
  unfold finalizeHunk
  split
  · rename_i hcond
    have ha : h.addedLines = [] := List.length_eq_zero.mp hcond.1
    simp [ha]
  · simp [List.map_map]

theorem leadsWith_head {p : Char} {ps l : List Char}
    (h : leadsWith (p :: ps) l = true) : ∃ rest, l = p :: rest := by
  cases l with
  | nil => simp [leadsWith] at h
  | cons c cs =>
    simp only [leadsWith, Bool.and_eq_true, beq_iff_eq] at h
    exact ⟨cs, by rw [h.1]⟩

/-- C9: the parser (total by construction, raising no error on any input) handles a line starting with @@: when the hunk-header regex matches, both counters are reset to the declared starting positions, and when it does not match, both counters are reset to zero; in both cases parsing continues over the remaining lines from the reset state instead of aborting. -/
theorem c9_hunk_header_counter_reset (st : ParseState) (line : String) (rest : List String)
    (hat : jsStartsWith line "@@" = true) :
    (∀ o n : ℕ, execHunkHeader line = some (o, n) →
      List.foldl processLine st (line :: rest) =
        List.foldl processLine
          ⟨(finalizeHunk st.currentHunk st.addedLines).1, n, o, ⟨[], [], n, o⟩⟩
          rest) ∧
    (execHunkHeader line = none →
      List.foldl processLine st (line :: rest) =
        List.foldl processLine
          ⟨(finalizeHunk st.currentHunk st.addedLines).1, 0, 0, createEmptyHunk⟩
          rest) := by
  constructor
  · intro o n hex
    rw [List.foldl_cons]
    congr 1
    simp only [processLine, hat, if_pos, hex]
    rw [finalizeHunk_snd]
    rfl
  · intro hex
    rw [List.foldl_cons]
    congr 1
    simp only [processLine, hat, if_pos, hex]
    rw [finalizeHunk_snd]

/-- C10: a parser input line beginning with +++ or --- records no added or removed line: it is handled exactly like a context line, finalizing the in-progress hunk when it is non-empty and incrementing both the old-file and new-file counters — so an added line whose content begins with ++ (or a removed one whose content begins with --) is silently dropped from the hunk. -/
theorem c10_file_marker_lines_are_context (st : ParseState) (line : String)
    (h : jsStartsWith line "+++" = true ∨ jsStartsWith line "---" = true) :
    processLine st line = processLine st "" ∧
    (processLine st line).newLineNum = st.newLineNum + 1 ∧
    (processLine st line).oldLineNum = st.oldLineNum + 1 ∧
    (st.currentHunk.addedLines = [] ∧ st.currentHunk.removedLines = [] →
      (processLine st line).addedLines = st.addedLines ∧
      (processLine st line).currentHunk = st.currentHunk) ∧
    (¬(st.currentHunk.addedLines = [] ∧ st.currentHunk.removedLines = []) →
      (processLine st line).addedLines =
        (finalizeHunk st.currentHunk st.addedLines).1 ∧
      (processLine st line).currentHunk = createEmptyHunk) := by
  have hconds : jsStartsWith line "@@" = false ∧
      (jsStartsWith line "+" && !jsStartsWith line "+++") = false ∧
      (jsStartsWith line "-" && !jsStartsWith line "---") = false ∧
      jsStartsWith line "\\" = false := by
    rcases h with hp | hp
    · obtain ⟨rest, hrest⟩ := leadsWith_head
        (show leadsWith ('+' :: ['+', '+']) line.data = true from hp)
      refine ⟨?_, ?_, ?_, ?_⟩
      · show leadsWith ['@', '@'] line.data = false
        rw [hrest]; rfl
      · rw [hp]
        show (jsStartsWith line "+" && false) = false
        exact Bool.and_false _
      · have hm : jsStartsWith line "-" = false := by
          show leadsWith ['-'] line.data = false
          rw [hrest]; rfl
        rw [hm]
        rfl
      · show leadsWith ['\\'] line.data = false
        rw [hrest]; rfl
    · obtain ⟨rest, hrest⟩ := leadsWith_head
        (show leadsWith ('-' :: ['-', '-']) line.data = true from hp)
      refine ⟨?_, ?_, ?_, ?_⟩
      · show leadsWith ['@', '@'] line.data = false
        rw [hrest]; rfl
      · have hm : jsStartsWith line "+" = false := by
          show leadsWith ['+'] line.data = false
          rw [hrest]; rfl
        rw [hm]
        rfl
      · rw [hp]
        show (jsStartsWith line "-" && false) = false
        exact Bool.and_false _
      · show leadsWith ['\\'] line.data = false
        rw [hrest]; rfl
  obtain ⟨hc1, hc2, hc3, hc4⟩ := hconds
  have hctx : processLine st line =
      (let st1 :=
        if st.currentHunk.addedLines.length > 0 ∨
            st.currentHunk.removedLines.length > 0 then
          let fin := finalizeHunk st.currentHunk st.addedLines
          { st with addedLines := fin.1, currentHunk := fin.2 }
        else st;
      { st1 with newLineNum := st1.newLineNum + 1, oldLineNum := st1.oldLineNum + 1 }) := by
    unfold processLine
    rw [hc1, hc2, hc3, hc4]
    rfl
  refine ⟨?_, ?_, ?_, ?_, ?_⟩
  · rw [hctx]; rfl
  · rw [hctx]
    by_cases hcond : st.currentHunk.addedLines.length > 0 ∨
        st.currentHunk.removedLines.length > 0
    · simp only [if_pos hcond]
    · simp only [if_neg hcond]
  · rw [hctx]
    by_cases hcond : st.currentHunk.addedLines.length > 0 ∨
        st.currentHunk.removedLines.length > 0
    · simp only [if_pos hcond]
    · simp only [if_neg hcond]
  · intro hemp
    rw [hctx]
    have hno : ¬(st.currentHunk.addedLines.length > 0 ∨
        st.currentHunk.removedLines.length > 0) := by
      simp [hemp.1, hemp.2]
    simp only [if_neg hno]
    exact ⟨trivial, trivial⟩
  · intro hemp
    rw [hctx]
    have hne : st.currentHunk.addedLines.length > 0 ∨
        st.currentHunk.removedLines.length > 0 := by
      rcases Decidable.not_and_iff_or_not.mp hemp with hx | hx
      · exact Or.inl (List.length_pos.mpr hx)
      · exact Or.inr (List.length_pos.mpr hx)
    simp only [if_pos hne]
    exact ⟨trivial, finalizeHunk_snd _ _⟩

theorem processLine_hunk_inv (st : ParseState) (line : String)
    (h : ∃ s, st.currentHunk.addedLines.map LineEntry.lineNum =
        List.range' s st.currentHunk.addedLines.length ∧
      s + st.currentHunk.addedLines.length = st.newLineNum) :
    ∃ s, (processLine st line).currentHunk.addedLines.map LineEntry.lineNum =
        List.range' s (processLine st line).currentHunk.addedLines.length ∧
      s + (processLine st line).currentHunk.addedLines.length =
        (processLine st line).newLineNum := by
  unfold processLine
  by_cases h1 : jsStartsWith line "@@" = true
  · rw [if_pos h1]
    cases hex : execHunkHeader line with
    | some v =>
      refine ⟨v.2, ?_, ?_⟩ <;> simp [finalizeHunk_snd, createEmptyHunk]
    | none =>
      refine ⟨0, ?_, ?_⟩ <;> simp [finalizeHunk_snd, createEmptyHunk]
  · rw [if_neg h1]
    by_cases h2 : (jsStartsWith line "+" && !jsStartsWith line "+++") = true
    · rw [if_pos h2]
      obtain ⟨s, hmap, hsum⟩ := h
      refine ⟨s, ?_, ?_⟩
      · simp only [List.map_append, List.length_append, List.map_cons, List.map_nil,
          List.length_cons, List.length_nil]
        rw [hmap]
        have hlen : st.currentHunk.addedLines.length + (0 + 1) =
            st.currentHunk.addedLines.length + 1 := by omega
        rw [hlen, List.range'_1_concat, hsum]
      · simp only [List.length_append, List.length_cons, List.length_nil]
        omega
    · rw [if_neg h2]
      by_cases h3 : (jsStartsWith line "-" && !jsStartsWith line "---") = true
      · rw [if_pos h3]
        exact h
      · rw [if_neg h3]
        by_cases h4 : (!jsStartsWith line "\\") = true
        · rw [if_pos h4]
          by_cases hcond : st.currentHunk.addedLines.length > 0 ∨
              st.currentHunk.removedLines.length > 0
          · simp only [if_pos hcond]
            refine ⟨st.newLineNum + 1, ?_, ?_⟩ <;>
              simp [finalizeHunk_snd, createEmptyHunk]
          · simp only [if_neg hcond]
            have ha : st.currentHunk.addedLines = [] := by
              rcases Nat.eq_zero_or_pos st.currentHunk.addedLines.length with hz | hp
              · exact List.length_eq_zero.mp hz
              · exact absurd (Or.inl hp) hcond
            refine ⟨st.newLineNum + 1, ?_, ?_⟩ <;> simp [ha]
        · rw [if_neg h4]
          exact h

theorem foldl_hunk_inv (lines : List String) (st : ParseState)
    (h : ∃ s, st.currentHunk.addedLines.map LineEntry.lineNum =
        List.range' s st.currentHunk.addedLines.length ∧
      s + st.currentHunk.addedLines.length = st.newLineNum) :
    ∃ s, (List.foldl processLine st lines).currentHunk.addedLines.map
        LineEntry.lineNum =
        List.range' s (List.foldl processLine st lines).currentHunk.addedLines.length ∧
      s + (List.foldl processLine st lines).currentHunk.addedLines.length =
        (List.foldl processLine st lines).newLineNum := by
  induction lines generalizing st with
  | nil => exact h
  | cons l ls ih => exact ih (processLine st l) (processLine_hunk_inv st l h)

/-- C6 (amended): at every point of the parse, the in-progress hunk's added lines carry consecutive numbers ending at the current new-file counter (the last recognized header's declared new start — or zero after none or an unrecognized one — advanced by one per added or context line), and the final finalization appends exactly that consecutive, hence strictly increasing, run to the output; numbers are not in general positive, increasing or unique across hunks. -/
theorem c6_hunk_numbers_consecutive (patch : String) (pre post : List String)
    (hsplit : jsSplitNewline patch = pre ++ post) :
    ∃ s,
      (pre.foldl processLine initialParseState).currentHunk.addedLines.map
          LineEntry.lineNum =
        List.range' s
          (pre.foldl processLine initialParseState).currentHunk.addedLines.length ∧
      s + (pre.foldl processLine initialParseState).currentHunk.addedLines.length =
        (pre.foldl processLine initialParseState).newLineNum ∧
      (post = [] →
        (parsePatch patch).map AddedLine.number =
          (pre.foldl processLine initialParseState).addedLines.map
            AddedLine.number ++
          List.range' s
            (pre.foldl processLine initialParseState).currentHunk.addedLines.length) := by
  obtain ⟨s, h1, h2⟩ := foldl_hunk_inv pre initialParseState ⟨0, rfl, rfl⟩
  refine ⟨s, h1, h2, ?_⟩
  intro hpost
  subst hpost
  rw [List.append_nil] at hsplit
  unfold parsePatch
  rw [hsplit]
  rw [finalizeHunk_map_number, h1]

/-- Witness for C1 at concrete inputs: same author with deltaDays 1 (at most 21) gives Churn, deltaDays 40 (above 21) gives Rework, and a different current author gives Help Others. -/
theorem c1_replace_same_author_threshold_witness :
    (classifyLine 5 HUNK_TYPES.REPLACE
      (some [⟨3, 7, some ⟨some "deadbeef", some (DateStr.valid 0),
        some ⟨some "alice"⟩⟩⟩]) "alice" (some 86400000) 21).category =
      CATEGORIES.CHURN ∧
    (classifyLine 5 HUNK_TYPES.REPLACE
      (some [⟨3, 7, some ⟨some "deadbeef", some (DateStr.valid 0),
        some ⟨some "alice"⟩⟩⟩]) "alice" (some 3456000000) 21).category =
      CATEGORIES.REWORK ∧
    (classifyLine 5 HUNK_TYPES.REPLACE
      (some [⟨3, 7, some ⟨some "deadbeef", some (DateStr.valid 0),
        some ⟨some "alice"⟩⟩⟩]) "bob" (some 0) 21).category =
      CATEGORIES.HELP_OTHERS := by
  refine ⟨?_, ?_, ?_⟩
  · exact ((c1_replace_same_author_threshold 5 (some [⟨3, 7, some ⟨some "deadbeef", some (DateStr.valid 0),
      some ⟨some "alice"⟩⟩⟩]) "alice" (some 86400000) 21
      ⟨3, 7, some ⟨some "deadbeef", some (DateStr.valid 0), some ⟨some "alice"⟩⟩⟩
      (some 0) (by decide) (by decide)).1 "alice" (by decide) rfl).1 1
      (by norm_num [calculateDeltaDays, MILLISECONDS_PER_DAY]) (by norm_num)
  · exact ((c1_replace_same_author_threshold 5 (some [⟨3, 7, some ⟨some "deadbeef", some (DateStr.valid 0),
      some ⟨some "alice"⟩⟩⟩]) "alice" (some 3456000000) 21
      ⟨3, 7, some ⟨some "deadbeef", some (DateStr.valid 0), some ⟨some "alice"⟩⟩⟩
      (some 0) (by decide) (by decide)).1 "alice" (by decide) rfl).2 40
      (by norm_num [calculateDeltaDays, MILLISECONDS_PER_DAY]) (by norm_num)
  · exact (c1_replace_same_author_threshold 5 (some [⟨3, 7, some ⟨some "deadbeef", some (DateStr.valid 0),
      some ⟨some "alice"⟩⟩⟩]) "bob" (some 0) 21
      ⟨3, 7, some ⟨some "deadbeef", some (DateStr.valid 0), some ⟨some "alice"⟩⟩⟩
      (some 0) (by decide) (by decide)).2.1 "alice" (by decide) (by decide)

/-- Witness for C2 at concrete inputs: a non-covering range yields New Work with no evidence, an absent range input behaves like the empty list, and the first matching range decides the result. -/
theorem c2_replace_first_matching_range_witness :
    classifyLine 5 HUNK_TYPES.REPLACE (some [⟨10, 20, none⟩]) "a" (some 0) 21 =
      ⟨CATEGORIES.NEW_WORK, none, none, none⟩ ∧
    classifyLine 5 HUNK_TYPES.REPLACE none "a" (some 0) 21 =
      classifyLine 5 HUNK_TYPES.REPLACE (some []) "a" (some 0) 21 ∧
    classifyLine 5 HUNK_TYPES.REPLACE (some ([⟨10, 20, none⟩] ++ ⟨1, 6, none⟩ :: []))
        "a" (some 0) 21 =
      classifyLine 5 HUNK_TYPES.REPLACE (some [⟨1, 6, none⟩]) "a" (some 0) 21 := by
  refine ⟨?_, ?_, ?_⟩
  · exact (c2_replace_first_matching_range 5 "a" (some 0) 21).1 (some [⟨10, 20, none⟩]) (by decide)
  · exact (c2_replace_first_matching_range 5 "a" (some 0) 21).2.1
  · exact (c2_replace_first_matching_range 5 "a" (some 0) 21).2.2 [⟨10, 20, none⟩] [] ⟨1, 6, none⟩
      (by decide) (by decide) (by decide)

/-- Witness for C3: a hunk removing two blank lines and adding one non-blank line is typed add-only despite its non-zero raw removed count. -/
theorem c3_hunk_type_from_nonblank_subsets_witness :
    determineHunkType
      ((Hunk.mk [⟨"  ", 3⟩, ⟨"", 4⟩] [⟨"x", 5⟩] 0 0).removedLines.filter
        (fun l => !isBlankLine l.content))
      ((Hunk.mk [⟨"  ", 3⟩, ⟨"", 4⟩] [⟨"x", 5⟩] 0 0).addedLines.filter
        (fun l => !isBlankLine l.content))
      (Hunk.mk [⟨"  ", 3⟩, ⟨"", 4⟩] [⟨"x", 5⟩] 0 0).addedLines =
      HUNK_TYPES.ADD_ONLY :=
  (c3_hunk_type_from_nonblank_subsets (Hunk.mk [⟨"  ", 3⟩, ⟨"", 4⟩] [⟨"x", 5⟩] 0 0) []
    (Or.inl (by decide))).1 (by decide) (by decide)

/-- Witness for C5: finalizing a one-removed, one-added hunk emits one record per added line, all of one type, with the removedLines attachment rule. -/
theorem c5_finalize_emission_witness :
    ∃ (t : String) (rest : List AddedLine),
      (finalizeHunk (Hunk.mk [⟨"old", 2⟩] [⟨"new", 2⟩] 0 0) []).1 = [] ++ rest ∧
      rest.length = (Hunk.mk [⟨"old", 2⟩] [⟨"new", 2⟩] 0 0).addedLines.length ∧
      ∀ rec ∈ rest, rec.hunkType = t ∧
        rec.removedLines =
          (if t = HUNK_TYPES.REPLACE then
            (Hunk.mk [⟨"old", 2⟩] [⟨"new", 2⟩] 0 0).removedLines else []) :=
  (c5_finalize_emission (Hunk.mk [⟨"old", 2⟩] [⟨"new", 2⟩] 0 0) []).2 (Or.inl (by decide))

/-- C6 counterexample: a plus line before any recognized hunk header is numbered 0 — not a positive integer — and a diff whose second hunk header declares an earlier start yields the numbers 5 then 1, so the number fields over a whole file are neither positive nor strictly increasing nor unique as the unamended claim states. -/
theorem c6_counterexample_zero_number :
    (parsePatch "+a").map AddedLine.number = [0] ∧
    (¬ ∀ rec ∈ parsePatch "+a", 0 < rec.number) ∧
    (parsePatch "@@ -5,1 +5,1 @@\n+a\n@@ -1,1 +1,1 @@\n+b").map AddedLine.number =
      [5, 1] := by
  refine ⟨by decide, by decide, by decide⟩

/-- Witness for C6 at a concrete two-line hunk: the buffered numbers form a consecutive run ending at the counter and finalization appends exactly that run. -/
theorem c6_hunk_numbers_consecutive_witness :
    ∃ s,
      (["@@ -1,2 +4,2 @@", "+a", "+b"].foldl processLine
          initialParseState).currentHunk.addedLines.map LineEntry.lineNum =
        List.range' s
          (["@@ -1,2 +4,2 @@", "+a", "+b"].foldl processLine
            initialParseState).currentHunk.addedLines.length ∧
      s + (["@@ -1,2 +4,2 @@", "+a", "+b"].foldl processLine
          initialParseState).currentHunk.addedLines.length =
        (["@@ -1,2 +4,2 @@", "+a", "+b"].foldl processLine
          initialParseState).newLineNum ∧
      (([] : List String) = [] →
        (parsePatch "@@ -1,2 +4,2 @@\n+a\n+b").map AddedLine.number =
          (["@@ -1,2 +4,2 @@", "+a", "+b"].foldl processLine
            initialParseState).addedLines.map AddedLine.number ++
          List.range' s
            (["@@ -1,2 +4,2 @@", "+a", "+b"].foldl processLine
              initialParseState).currentHunk.addedLines.length) :=
  c6_hunk_numbers_consecutive "@@ -1,2 +4,2 @@\n+a\n+b" ["@@ -1,2 +4,2 @@", "+a", "+b"] [] (by decide)

/-- Witness for C8 at a concrete range with absent committedDate: category New Work, deltaDays absent, while author and commit evidence are still reported. -/
theorem c8_missing_date_new_work_keeps_evidence_witness :
    (classifyLine 3 HUNK_TYPES.REPLACE
      (some [⟨2, 4, some ⟨some "abc", none, some ⟨some "alice"⟩⟩⟩]) "bob"
      (some 0) 21).category = CATEGORIES.NEW_WORK ∧
    (classifyLine 3 HUNK_TYPES.REPLACE
      (some [⟨2, 4, some ⟨some "abc", none, some ⟨some "alice"⟩⟩⟩]) "bob"
      (some 0) 21).deltaDays = none ∧
    (classifyLine 3 HUNK_TYPES.REPLACE
      (some [⟨2, 4, some ⟨some "abc", none, some ⟨some "alice"⟩⟩⟩]) "bob"
      (some 0) 21).prevAuthor = some "alice" ∧
    (classifyLine 3 HUNK_TYPES.REPLACE
      (some [⟨2, 4, some ⟨some "abc", none, some ⟨some "alice"⟩⟩⟩]) "bob"
      (some 0) 21).prevCommit = some "abc" := by
  refine ⟨?_, ?_, ?_, ?_⟩
  · exact (c8_missing_date_new_work_keeps_evidence 3 (some [⟨2, 4, some ⟨some "abc", none, some ⟨some "alice"⟩⟩⟩])
      "bob" (some 0) 21 ⟨2, 4, some ⟨some "abc", none, some ⟨some "alice"⟩⟩⟩
      (by decide) (Or.inl (by decide))).1
  · exact (c8_missing_date_new_work_keeps_evidence 3 (some [⟨2, 4, some ⟨some "abc", none, some ⟨some "alice"⟩⟩⟩])
      "bob" (some 0) 21 ⟨2, 4, some ⟨some "abc", none, some ⟨some "alice"⟩⟩⟩
      (by decide) (Or.inl (by decide))).2.1
  · exact (c8_missing_date_new_work_keeps_evidence 3 (some [⟨2, 4, some ⟨some "abc", none, some ⟨some "alice"⟩⟩⟩])
      "bob" (some 0) 21 ⟨2, 4, some ⟨some "abc", none, some ⟨some "alice"⟩⟩⟩
      (by decide) (Or.inl (by decide))).2.2.1 "alice"
      (by decide) (by decide)
  · exact (c8_missing_date_new_work_keeps_evidence 3 (some [⟨2, 4, some ⟨some "abc", none, some ⟨some "alice"⟩⟩⟩])
      "bob" (some 0) 21 ⟨2, 4, some ⟨some "abc", none, some ⟨some "alice"⟩⟩⟩
      (by decide) (Or.inl (by decide))).2.2.2.2.1 "abc"
      (by decide) (by decide)

/-- Witness for C9: a recognized header resets the counters to its declared starts (new 7, old 3) and an unrecognized @@ line resets them to zero. -/
theorem c9_hunk_header_counter_reset_witness :
    (List.foldl processLine initialParseState ["@@ -3,2 +7,4 @@"] =
      List.foldl processLine
        ⟨(finalizeHunk initialParseState.currentHunk
          initialParseState.addedLines).1, 7, 3, ⟨[], [], 7, 3⟩⟩ []) ∧
    (List.foldl processLine initialParseState ["@@ bogus header"] =
      List.foldl processLine
        ⟨(finalizeHunk initialParseState.currentHunk
          initialParseState.addedLines).1, 0, 0, createEmptyHunk⟩ []) :=
  ⟨(c9_hunk_header_counter_reset initialParseState "@@ -3,2 +7,4 @@" [] (by decide)).1 3 7 (by decide),
   (c9_hunk_header_counter_reset initialParseState "@@ bogus header" [] (by decide)).2 (by decide)⟩

/-- Witness for C10: a +++ line on a state with a buffered added line increments both counters, finalizes the hunk and records nothing. -/
theorem c10_file_marker_lines_are_context_witness :
    (processLine ⟨[], 5, 9, ⟨[], [⟨"x", 4⟩], 0, 0⟩⟩ "+++code").newLineNum =
      5 + 1 ∧
    (processLine ⟨[], 5, 9, ⟨[], [⟨"x", 4⟩], 0, 0⟩⟩ "+++code").oldLineNum =
      9 + 1 ∧
    (processLine ⟨[], 5, 9, ⟨[], [⟨"x", 4⟩], 0, 0⟩⟩ "+++code").addedLines =
      (finalizeHunk (⟨[], [⟨"x", 4⟩], 0, 0⟩ : Hunk) []).1 ∧
    (processLine ⟨[], 5, 9, ⟨[], [⟨"x", 4⟩], 0, 0⟩⟩ "+++code").currentHunk =
      createEmptyHunk := by
  refine ⟨?_, ?_, ?_, ?_⟩
  · exact (c10_file_marker_lines_are_context ⟨[], 5, 9, ⟨[], [⟨"x", 4⟩], 0, 0⟩⟩ "+++code"
      (Or.inl (by decide))).2.1
  · exact (c10_file_marker_lines_are_context ⟨[], 5, 9, ⟨[], [⟨"x", 4⟩], 0, 0⟩⟩ "+++code"
      (Or.inl (by decide))).2.2.1
  · exact ((c10_file_marker_lines_are_context ⟨[], 5, 9, ⟨[], [⟨"x", 4⟩], 0, 0⟩⟩ "+++code"
      (Or.inl (by decide))).2.2.2.2 (by decide)).1
  · exact ((c10_file_marker_lines_are_context ⟨[], 5, 9, ⟨[], [⟨"x", 4⟩], 0, 0⟩⟩ "+++code"
      (Or.inl (by decide))).2.2.2.2 (by decide)).2
